import Mathlib

set_option maxHeartbeats 1000000

namespace Chatbot

/-- A content block of a multimodal message, mirroring the dictionaries built
in src/src/chatbot.py: for text, a dict with type "text" and a "text" field;
for images, a dict with type "image_url" and a nested url field. Accessing a
field the other variant lacks raises a KeyError in the source; the accessors
below return Option accordingly. -/
inductive ContentBlock where
  | text (t : String)
  | image (url : String)
deriving DecidableEq, Repr

/-- The content of a stored turn: the source stores either a plain string or a
list of content-block dictionaries (the Union[str, List] annotation of
ChatMemory.add_message). -/
inductive Content where
  | str (s : String)
  | blocks (bs : List ContentBlock)
deriving DecidableEq, Repr

/-- One entry of ChatMemory.conversation_history: the dictionary appended at
src/src/chatbot.py lines 21-26. -/
structure Turn where
  role : String
  content : Content
  has_image : Bool
  hide_prompt : Bool
deriving DecidableEq, Repr

/-- The filter of src/src/chatbot.py lines 16-19: a turn is multi-block when
its content is a list of more than one block. -/
def isMultiBlock (t : Turn) : Bool :=
  match t.content with
  | .str _ => false
  | .blocks bs => 1 < bs.length

/-- The prune step of ChatMemory.add_message (lines 16-19): keep only the
turns that are not multi-block. -/
def prune (h : List Turn) : List Turn :=
  h.filter (fun m => !(isMultiBlock m))

/-- ChatMemory.add_message (lines 14-26): when has_image is false, first remove
every multi-block turn, then append the new turn built from the arguments. -/
def add_message (h : List Turn) (role : String) (content : Content)
    (has_image : Bool) (hide_prompt : Bool) : List Turn :=
  (if has_image then h else prune h) ++ [⟨role, content, has_image, hide_prompt⟩]

/-- The str(e) text of a Python IndexError raised by indexing an empty list. -/
def idxErr : String := "list index out of range"

/-- The str(e) text of the KeyError raised by block[\x22text\x22] on an image
block. -/
def keyErrText : String := "\x27text\x27"

/-- The str(e) text of the KeyError raised by block[\x22image_url\x22] on a
text block. -/
def keyErrImage : String := "\x27image_url\x27"

/-- The image markup emitted by ChatMemory.get_display_history at lines 44
and 51. -/
def renderImg (url : String) : String :=
  "<img src=\x27" ++ url ++ "\x27 width=\x27400\x27>"

/-- The loop of get_display_history lines 40-45: the url of the first image
block, if any (has_shown_image stops the loop after the first one). -/
def firstImageUrl : List ContentBlock → Option String
  | [] => none
  | .image u :: _ => some u
  | .text _ :: rest => firstImageUrl rest

/-- block[0][\x22text\x22] applied to a block list: IndexError on an empty
list, KeyError when the first block is an image block. -/
def firstText : List ContentBlock → Except String String
  | [] => .error idxErr
  | .text t :: _ => .ok t
  | .image _ :: _ => .error keyErrText

/-- The per-turn body of ChatMemory.get_display_history (lines 36-60),
producing the (user, assistant) pairs for one turn, or the str(e) of the
exception the source raises on that turn. -/
def display_turn (msg : Turn) : Except String (List (Option String × Option String)) :=
  if msg.role = "user" then
    match msg.content with
    | .blocks bs =>
      if msg.hide_prompt then
        match firstImageUrl bs with
        | some u => .ok [(some (renderImg u), none)]
        | none => .ok []
      else
        match bs with
        | [] => .error idxErr
        | .image _ :: _ => .error keyErrText
        | .text t :: rest =>
          match rest with
          | [] => .ok [(some t, none)]
          | .image u :: _ => .ok [(some t, none), (some (renderImg u), none)]
          | .text _ :: _ => .error keyErrImage
    | .str s => .ok [(some s, none)]
  else
    match msg.content with
    | .blocks bs =>
      match firstText bs with
      | .ok t => .ok [(none, some t)]
      | .error e => .error e
    | .str s => .ok [(none, some s)]

/-- ChatMemory.get_display_history (lines 34-61): concatenate the per-turn
pairs; the first raising turn aborts the whole rendering. -/
def get_display_history : List Turn → Except String (List (Option String × Option String))
  | [] => .ok []
  | m :: rest =>
    match display_turn m with
    | .error e => .error e
    | .ok x =>
      match get_display_history rest with
      | .error e => .error e
      | .ok xs => .ok (x ++ xs)

/-- The content of one API-ready message (lines 179-186): either the raw block
list or a plain string. -/
inductive ApiContent where
  | str (s : String)
  | blocks (bs : List ContentBlock)
deriving DecidableEq, Repr

/-- One API-ready message: the dict with role and content built at lines
179-187. -/
structure ApiMsg where
  role : String
  content : ApiContent
deriving DecidableEq, Repr

/-- The per-turn flattening of lines 179-186: a turn with list content keeps
its raw blocks when has_image is true, otherwise is reduced to its first
block's text (IndexError on an empty list, KeyError when the first block is
an image); string content passes through. -/
def flatten_turn (msg : Turn) : Except String ApiMsg :=
  match msg.content with
  | .str s => .ok ⟨msg.role, .str s⟩
  | .blocks bs =>
    if msg.has_image then .ok ⟨msg.role, .blocks bs⟩
    else
      match firstText bs with
      | .ok t => .ok ⟨msg.role, .str t⟩
      | .error e => .error e

/-- The api_messages loop of lines 177-187: flatten each stored turn in
order; the first raising turn aborts the build. -/
def build_api_messages : List Turn → Except String (List ApiMsg)
  | [] => .ok []
  | m :: rest =>
    match flatten_turn m with
    | .error e => .error e
    | .ok am =>
      match build_api_messages rest with
      | .error e => .error e
      | .ok ams => .ok (am :: ams)

/-- The outcome of the completion collaborator call (lines 189-209): a reply
text from a non-empty choices list, an empty/absent choices result, or the
str(e) of a raised exception. -/
inductive CompletionResult where
  | ok (text : String)
  | empty
  | error (e : String)
deriving DecidableEq, Repr

/-- The environment of one process_message call: whether self.client is set,
the vision_models capability table, the outcome of the describeImage
collaborator (the body of get_image_description up to its return), the
outcome of reading and base64-encoding the attached image at lines 153-154,
and the outcome of the completion call. -/
structure Env where
  clientConfigured : Bool
  visionModels : List (String × Bool)
  describe : Except String String
  imageRead : Except String String
  completion : CompletionResult

/-- self.vision_models.get(model, False) (line 151): linear lookup with
default false; the source table has distinct keys so first-match equals
dict lookup. -/
def lookupVision (table : List (String × Bool)) (m : String) : Bool :=
  match table with
  | [] => false
  | (k, v) :: rest => if k = m then v else lookupVision rest m

/-- The concrete self.vision_models table of lines 82-94. -/
def vision_models : List (String × Bool) :=
  [("google/gemini-2.0-flash-001", true),
   ("openai/o1", true),
   ("openai/o3-mini-high", true),
   ("deepseek/deepseek-r1", false),
   ("deepseek/deepseek-r1-distill-llama-70b", false),
   ("anthropic/claude-3.7-sonnet", true),
   ("openai/gpt-4o-mini", false),
   ("openai/gpt-4o-2024-11-20", true),
   ("qwen/qvq-72b-preview", true),
   ("mistralai/pixtral-large-2411", true),
   ("x-ai/grok-2-vision-1212", true)]

/-- ChatInterface.get_image_description (lines 106-131): every exception of
the read/transport attempt is caught and turned into the error string; a
success returns the description text. The function never raises. -/
def get_image_description (describe : Except String String) : String :=
  match describe with
  | .ok s => s
  | .error e => "Error getting image description: " ++ e

/-- The first component of process_message's returned pair: None when the
client is not configured (line 141), the caller's history passed through
unchanged (lines 168 and 225), or the rendered display history. -/
inductive DisplayOut where
  | noneOut
  | passedThrough
  | rendered (pairs : List (Option String × Option String))
deriving DecidableEq, Repr

/-- The observable outcome of one process_message call: the store state after
the call, what is returned as the first tuple component, the returned error
string, and (for specification purposes) the api_messages array actually
built at lines 177-187, none when the build raised or was never reached. -/
structure SubmitOut where
  hist : List Turn
  display : DisplayOut
  err : String
  api : Option (List ApiMsg)
deriving Repr

/-- The turn appended for every assistant reply or error (lines 211, 215,
220): a single text block, has_image and hide_prompt defaulted to false. -/
def assistantTurn (s : String) : Turn :=
  ⟨"assistant", Content.blocks [ContentBlock.text s], false, false⟩

/-- The except branch at lines 218-221: record the error as an assistant
turn, re-render; a second exception in the rendering escapes to the outer
handler at lines 223-225, which passes the caller's history through. -/
def handle_api_error (h : List Turn) (error_msg : String) :
    List Turn × DisplayOut × String :=
  let h2 := add_message h "assistant" (Content.blocks [ContentBlock.text error_msg]) false false
  match get_display_history h2 with
  | .ok pairs => (h2, .rendered pairs, error_msg)
  | .error e => (h2, .passedThrough, "Error: " ++ e)

/-- The success and empty-response returns at lines 209-216: append the
assistant turn, render; an exception in the rendering is caught at line 218
and handled like an API error. -/
def respond_ok (h : List Turn) (amsg : String) (errOut : String) :
    List Turn × DisplayOut × String :=
  let h2 := add_message h "assistant" (Content.blocks [ContentBlock.text amsg]) false false
  match get_display_history h2 with
  | .ok pairs => (h2, .rendered pairs, errOut)
  | .error e => handle_api_error h2 ("Error in API call: " ++ e)

/-- Line 144: the custom model string replaces the identifier "custom". -/
def actualModelOf (model_name custom_model : String) : String :=
  if model_name = "custom" then custom_model else model_name

/-- Lines 145-148: the initial content sequence, a text block from user_input
when it is non-empty (Python truthiness of the string). -/
def baseContent (user_input : String) : List ContentBlock :=
  if user_input = "" then [] else [ContentBlock.text user_input]

/-- The image branch of lines 150-168: read and encode the image (an
exception returns the processing error), then either replace the content
with a single described-text block (non-vision model, lines 156-161) or
append an image block with a png data URI (lines 162-166). -/
def image_step (env : Env) (user_input : String) (actual_model : String)
    (mc0 : List ContentBlock) : Except String (List ContentBlock) :=
  match env.imageRead with
  | .error e => .error ("Error processing image: " ++ e)
  | .ok img_data =>
    if lookupVision env.visionModels actual_model then
      .ok (mc0 ++ [ContentBlock.image ("data:image/png;base64," ++ img_data)])
    else
      .ok [ContentBlock.text (user_input ++ "\n[Image Description: " ++
            get_image_description env.describe ++ "]")]

/-- Lines 145-168 combined: the content of the user turn to append, or the
image-processing error returned at line 168. -/
def content_step (env : Env) (user_input : String) (image : Option String)
    (mm : Bool) (model_name custom_model : String) :
    Except String (List ContentBlock) :=
  if mm && image.isSome then
    image_step env user_input (actualModelOf model_name custom_model)
      (baseContent user_input)
  else .ok (baseContent user_input)

/-- ChatInterface.process_message (lines 133-225), with the two collaborator
calls and the image read replaced by their recorded outcomes in Env. The
api field records the api_messages array built at lines 177-187 when the
build succeeds and the completion step is reached. -/
def process_message (env : Env) (h : List Turn) (user_input : String)
    (image : Option String) (mm : Bool) (model_name : String)
    (custom_model : String) : SubmitOut :=
  if env.clientConfigured = false then
    ⟨h, .noneOut, "Please configure API settings first.", none⟩
  else
    match content_step env user_input image mm model_name custom_model with
    | .error e => ⟨h, .passedThrough, e, none⟩
    | .ok mc =>
      let h1 := add_message h "user" (Content.blocks mc) (mm && image.isSome) false
      match build_api_messages h1 with
      | .error e =>
        let r := handle_api_error h1 ("Error in API call: " ++ e)
        ⟨r.1, r.2.1, r.2.2, none⟩
      | .ok msgs =>
        match env.completion with
        | .ok reply =>
          let r := respond_ok h1 reply ""
          ⟨r.1, r.2.1, r.2.2, some msgs⟩
        | .empty =>
          let r := respond_ok h1 "No response from API" "No response from API"
          ⟨r.1, r.2.1, r.2.2, some msgs⟩
        | .error e =>
          let r := handle_api_error h1 ("Error in API call: " ++ e)
          ⟨r.1, r.2.1, r.2.2, some msgs⟩

/-- The per-call arguments of process_message coming from the UI widgets. -/
structure CallArgs where
  user_input : String
  image : Option String
  mm : Bool
  model_name : String
  custom_model : String

/-- One submit call with the given environment and arguments. -/
def runCall (env : Env) (h : List Turn) (a : CallArgs) : SubmitOut :=
  process_message env h a.user_input a.image a.mm a.model_name a.custom_model

/-- Store states reachable from the empty store by submit calls whose
arguments satisfy P. -/
inductive ReachableUnder (P : CallArgs → Prop) : List Turn → Prop
  | start : ReachableUnder P []
  | step (h : List Turn) (env : Env) (a : CallArgs) :
      ReachableUnder P h → P a → ReachableUnder P (runCall env h a).hist

/-- Number of image blocks in a block list. -/
def imgCountBlocks (bs : List ContentBlock) : Nat :=
  (bs.filter (fun b => match b with | .image _ => true | .text _ => false)).length

/-- Number of image blocks in a stored turn. -/
def turnImgCount (t : Turn) : Nat :=
  match t.content with
  | .str _ => 0
  | .blocks bs => imgCountBlocks bs

/-- Number of image blocks in one API-ready message. -/
def apiMsgImgCount (m : ApiMsg) : Nat :=
  match m.content with
  | .str _ => 0
  | .blocks bs => imgCountBlocks bs

/-- Total number of image blocks across an API-ready message array. -/
def apiImgCount (ms : List ApiMsg) : Nat :=
  (ms.map apiMsgImgCount).sum

/-- A turn whose content is a non-empty block list or a plain string. -/
def contentNonEmpty (t : Turn) : Bool :=
  match t.content with
  | .str _ => true
  | .blocks bs => !bs.isEmpty

theorem mem_prune {t : Turn} {h : List Turn} (ht : t ∈ prune h) : t ∈ h :=
  (List.mem_filter.mp ht).1

theorem not_multi_of_mem_prune {t : Turn} {h : List Turn} (ht : t ∈ prune h) :
    isMultiBlock t = false := by
  have h2 := (List.mem_filter.mp ht).2
  simpa using h2

theorem add_message_false (h : List Turn) (r : String) (c : Content) (hp : Bool) :
    add_message h r c false hp = prune h ++ [⟨r, c, false, hp⟩] := by
  simp [add_message]

theorem add_message_true (h : List Turn) (r : String) (c : Content) (hp : Bool) :
    add_message h r c true hp = h ++ [⟨r, c, true, hp⟩] := by
  simp [add_message]

theorem mem_add_message {t : Turn} {h : List Turn} {r : String} {c : Content}
    {hi hp : Bool} (ht : t ∈ add_message h r c hi hp) : t ∈ h ∨ t = ⟨r, c, hi, hp⟩ := by
  unfold add_message at ht
  rcases List.mem_append.mp ht with h1 | h1
  · cases hi with
    | true => exact Or.inl (by simpa using h1)
    | false => exact Or.inl (mem_prune (by simpa using h1))
  · exact Or.inr (by simpa using h1)

theorem add_mem {t : Turn} {h : List Turn} (ht : t ∈ h) (hm : isMultiBlock t = false)
    (r : String) (c : Content) (hi hp : Bool) : t ∈ add_message h r c hi hp := by
  unfold add_message
  apply List.mem_append_left
  cases hi with
  | true => simpa using ht
  | false =>
    simp only [Bool.false_eq_true, if_false]
    exact List.mem_filter.mpr ⟨ht, by simp [hm]⟩

theorem self_mem_add (h : List Turn) (r : String) (c : Content) (hi hp : Bool) :
    (⟨r, c, hi, hp⟩ : Turn) ∈ add_message h r c hi hp := by
  unfold add_message
  exact List.mem_append_right _ (by simp)

theorem add_false_pres (P : Turn → Prop) {h : List Turn}
    (hh : ∀ t ∈ h, isMultiBlock t = false → P t) {r : String} {c : Content} {hp : Bool}
    (hn : P ⟨r, c, false, hp⟩) : ∀ t ∈ add_message h r c false hp, P t := by
  intro t ht
  rw [add_message_false] at ht
  rcases List.mem_append.mp ht with h1 | h1
  · exact hh t (mem_prune h1) (not_multi_of_mem_prune h1)
  · have h2 : t = ⟨r, c, false, hp⟩ := by simpa using h1
    rw [h2]; exact hn

theorem noMulti_add_false {h : List Turn} {r : String} {c : Content} {hp : Bool}
    (hn : isMultiBlock ⟨r, c, false, hp⟩ = false) :
    ∀ t ∈ add_message h r c false hp, isMultiBlock t = false :=
  add_false_pres (fun t => isMultiBlock t = false) (fun _ _ hm => hm) hn

theorem isMultiBlock_assistantTurn (s : String) : isMultiBlock (assistantTurn s) = false := rfl

theorem handle_fst (h : List Turn) (m : String) :
    (handle_api_error h m).1 =
      add_message h "assistant" (Content.blocks [ContentBlock.text m]) false false := by
  simp only [handle_api_error]
  split <;> rfl

theorem noMulti_handle (h : List Turn) (m : String) :
    ∀ t ∈ (handle_api_error h m).1, isMultiBlock t = false := by
  rw [handle_fst]
  exact noMulti_add_false rfl

theorem noMulti_respond (h : List Turn) (a eo : String) :
    ∀ t ∈ (respond_ok h a eo).1, isMultiBlock t = false := by
  intro t ht
  simp only [respond_ok] at ht
  split at ht
  · refine noMulti_add_false ?_ t ht
    rfl
  · exact noMulti_handle _ _ t ht

theorem mem_handle_of {t : Turn} {h : List Turn} (m : String) (ht : t ∈ h)
    (hm : isMultiBlock t = false) : t ∈ (handle_api_error h m).1 := by
  rw [handle_fst]
  exact add_mem ht hm _ _ _ _

theorem mem_respond_of {t : Turn} {h : List Turn} (a eo : String) (ht : t ∈ h)
    (hm : isMultiBlock t = false) : t ∈ (respond_ok h a eo).1 := by
  simp only [respond_ok]
  split
  · exact add_mem ht hm _ _ _ _
  · exact mem_handle_of _ (add_mem ht hm _ _ _ _) hm

theorem pres_handle (P : Turn → Prop) (h : List Turn) (m : String)
    (hh : ∀ t ∈ h, isMultiBlock t = false → P t) (ha : ∀ s, P (assistantTurn s)) :
    ∀ t ∈ (handle_api_error h m).1, P t := by
  rw [handle_fst]
  exact add_false_pres P hh (ha m)

theorem pres_respond (P : Turn → Prop) (h : List Turn) (a eo : String)
    (hh : ∀ t ∈ h, isMultiBlock t = false → P t) (ha : ∀ s, P (assistantTurn s)) :
    ∀ t ∈ (respond_ok h a eo).1, P t := by
  intro t ht
  simp only [respond_ok] at ht
  split at ht
  · exact add_false_pres P hh (ha a) t ht
  · refine pres_handle P _ _ ?_ ha t ht
    intro u hu _
    exact add_false_pres P hh (ha a) u hu

/-- C1 counterexample: two successive appends with hasImage=true (the shape
ChatMemory.add_message receives for multimodal user turns) leave two
multi-block turns in the store at once, refuting the claim that at most one
multi-block turn exists at any time over every sequence of appends. -/
theorem c1_counterexample :
    ((add_message
        (add_message [] "user"
          (Content.blocks [ContentBlock.text "a", ContentBlock.image "u"]) true false)
        "user" (Content.blocks [ContentBlock.text "b", ContentBlock.image "v"])
        true false).filter (fun t => isMultiBlock t)).length = 2 := rfl

/-- C1 (amended): an append with hasImage=false first removes every existing
multi-block turn and then appends the new turn; consequently, after any
non-image append, at most the just-appended turn is multi-block and at most
one multi-block turn is in the store. (After appends with hasImage=true,
several multi-block turns can accumulate.) -/
theorem c1_amended (h : List Turn) (r : String) (c : Content) (hp : Bool) :
    add_message h r c false hp = prune h ++ [⟨r, c, false, hp⟩] ∧
    (∀ t ∈ add_message h r c false hp, isMultiBlock t = true → t = ⟨r, c, false, hp⟩) ∧
    ((add_message h r c false hp).filter (fun t => isMultiBlock t)).length ≤ 1 := by
  refine ⟨add_message_false h r c hp, ?_, ?_⟩
  · intro t ht hm
    rw [add_message_false] at ht
    rcases List.mem_append.mp ht with h1 | h1
    · rw [not_multi_of_mem_prune h1] at hm
      cases hm
    · simpa using h1
  · rw [add_message_false, List.filter_append]
    have hempty : (prune h).filter (fun t => isMultiBlock t) = [] :=
      List.filter_eq_nil_iff.mpr (fun t ht => by simp [not_multi_of_mem_prune ht])
    rw [hempty]
    simpa using List.length_filter_le (fun t => isMultiBlock t) [⟨r, c, false, hp⟩]

/-- Witness for C1 (amended) at a concrete store holding one multi-block
turn. -/
theorem c1_witness :
    ((add_message
        [⟨"user", Content.blocks [ContentBlock.text "a", ContentBlock.image "u"], true, false⟩]
        "assistant" (Content.blocks [ContentBlock.text "ok"]) false false).filter
      (fun t => isMultiBlock t)).length ≤ 1 :=
  (c1_amended [⟨"user", Content.blocks [ContentBlock.text "a", ContentBlock.image "u"], true, false⟩]
    "assistant" (Content.blocks [ContentBlock.text "ok"]) false).2.2

/-- C9: a submit call with no configured completion collaborator returns the
configuration-error text, a None first component, and leaves the store
untouched. -/
theorem c9_confirmed (vm : List (String × Bool)) (d ir : Except String String)
    (cr : CompletionResult) (h : List Turn) (a : CallArgs) :
    (runCall ⟨false, vm, d, ir, cr⟩ h a).hist = h ∧
    (runCall ⟨false, vm, d, ir, cr⟩ h a).display = DisplayOut.noneOut ∧
    (runCall ⟨false, vm, d, ir, cr⟩ h a).err = "Please configure API settings first." :=
  ⟨rfl, rfl, rfl⟩

/-- C6: when the image read/encode fails during a submit with image attach
enabled and a path provided, the call returns the processing-error text and
the store is exactly as before (no turn appended). -/
theorem c6_confirmed (vm : List (String × Bool)) (d : Except String String)
    (cr : CompletionResult) (e ui p mn cm : String) (h : List Turn) :
    (runCall ⟨true, vm, d, Except.error e, cr⟩ h ⟨ui, some p, true, mn, cm⟩).hist = h ∧
    (runCall ⟨true, vm, d, Except.error e, cr⟩ h ⟨ui, some p, true, mn, cm⟩).err =
      "Error processing image: " ++ e :=
  ⟨rfl, rfl⟩

/-- C7: the per-turn flattening of step 5 keeps the turn's role, passes plain
strings through, keeps the raw block list exactly when the turn's hasImage
is true, and otherwise reduces the turn to its first block's text. -/
theorem c7_confirmed (t : Turn) :
    (∀ s, t.content = Content.str s → flatten_turn t = Except.ok ⟨t.role, ApiContent.str s⟩) ∧
    (∀ bs, t.content = Content.blocks bs → t.has_image = true →
      flatten_turn t = Except.ok ⟨t.role, ApiContent.blocks bs⟩) ∧
    (∀ x rest, t.content = Content.blocks (ContentBlock.text x :: rest) →
      t.has_image = false → flatten_turn t = Except.ok ⟨t.role, ApiContent.str x⟩) := by
  refine ⟨?_, ?_, ?_⟩
  · intro s hs
    simp [flatten_turn, hs]
  · intro bs hbs hi
    simp [flatten_turn, hbs, hi]
  · intro x rest hbs hi
    simp [flatten_turn, hbs, hi, firstText]

/-- Witness for C7 at a concrete single-text-block non-image turn. -/
theorem c7_witness :
    flatten_turn ⟨"user", Content.blocks [ContentBlock.text "hello"], false, false⟩ =
      Except.ok ⟨"user", ApiContent.str "hello"⟩ :=
  (c7_confirmed ⟨"user", Content.blocks [ContentBlock.text "hello"], false, false⟩).2.2
    "hello" [] rfl rfl

/-- C8 counterexample: a user turn with hidePrompt=false whose second block is
a Text block makes the rendering raise (KeyError on image_url), so not even
the first text pair is emitted — refuting the claim that a non-Image second
block produces no image pair and no failure of the text pair. -/
theorem c8_counterexample :
    display_turn ⟨"user", Content.blocks [ContentBlock.text "a", ContentBlock.text "b"],
      false, false⟩ = Except.error keyErrImage := rfl

/-- C8 (amended): for a user turn with hidePrompt=false whose first block is
Text, the renderer emits the text pair alone when there is no second block,
emits the text pair followed by a separate image-markup pair when the second
block is an Image, and fails (emitting nothing for the turn) when a second
block exists but is not an Image block. -/
theorem c8_amended (x : String) (rest : List ContentBlock) :
    (rest = [] →
      display_turn ⟨"user", Content.blocks (ContentBlock.text x :: rest), false, false⟩ =
        Except.ok [(some x, none)]) ∧
    (∀ u rs, rest = ContentBlock.image u :: rs →
      display_turn ⟨"user", Content.blocks (ContentBlock.text x :: rest), false, false⟩ =
        Except.ok [(some x, none), (some (renderImg u), none)]) ∧
    (∀ y rs, rest = ContentBlock.text y :: rs →
      display_turn ⟨"user", Content.blocks (ContentBlock.text x :: rest), false, false⟩ =
        Except.error keyErrImage) := by
  refine ⟨?_, ?_, ?_⟩
  · intro hr
    subst hr
    rfl
  · intro u rs hr
    subst hr
    rfl
  · intro y rs hr
    subst hr
    rfl

/-- Witness for C8 (amended) at a concrete text-then-image turn. -/
theorem c8_witness :
    display_turn ⟨"user", Content.blocks [ContentBlock.text "t", ContentBlock.image "u"],
      false, false⟩ = Except.ok [(some "t", none), (some (renderImg "u"), none)] :=
  (c8_amended "t" [ContentBlock.image "u"]).2.1 "u" [] rfl

/-- Every process_message call either leaves the store untouched (client not
configured, or image processing failed with the step error returned), or
appends the user turn built from the computed content and finishes through
one of the assistant-appending returns. -/
theorem process_message_cases (env : Env) (h : List Turn) (ui : String)
    (img : Option String) (mm : Bool) (mn cm : String) :
    (env.clientConfigured = false ∧ (process_message env h ui img mm mn cm).hist = h) ∨
    (∃ e, content_step env ui img mm mn cm = Except.error e ∧
      (process_message env h ui img mm mn cm).hist = h ∧
      (process_message env h ui img mm mn cm).err = e) ∨
    (∃ mc, content_step env ui img mm mn cm = Except.ok mc ∧
      ((∃ m, (process_message env h ui img mm mn cm).hist =
          (handle_api_error
            (add_message h "user" (Content.blocks mc) (mm && img.isSome) false) m).1) ∨
       (∃ s eo, (process_message env h ui img mm mn cm).hist =
          (respond_ok
            (add_message h "user" (Content.blocks mc) (mm && img.isSome) false) s eo).1))) := by
  by_cases hc : env.clientConfigured = false
  · exact Or.inl ⟨hc, by simp [process_message, hc]⟩
  · right
    rcases hcs : content_step env ui img mm mn cm with e | mc
    · left
      exact ⟨e, rfl, by simp [process_message, hc, hcs], by simp [process_message, hc, hcs]⟩
    · right
      refine ⟨mc, rfl, ?_⟩
      simp only [process_message, if_neg hc, hcs]
      rcases hb : build_api_messages
          (add_message h "user" (Content.blocks mc) (mm && img.isSome) false) with e2 | msgs
      · simp only [hb]
        exact Or.inl ⟨_, rfl⟩
      · simp only [hb]
        cases hcomp : env.completion with
        | ok r => exact Or.inr ⟨r, "", rfl⟩
        | empty => exact Or.inr ⟨_, _, rfl⟩
        | error e3 => exact Or.inl ⟨_, rfl⟩

/-- A content_step that reaches the image branch with a successful image read
never returns an error. -/
theorem content_step_ok_of_read (env : Env) (ui : String) (img : Option String)
    (mm : Bool) (mn cm : String)
    (hread : (mm && img.isSome) = true → ∃ d, env.imageRead = Except.ok d) :
    ∀ e, content_step env ui img mm mn cm ≠ Except.error e := by
  intro e hcs
  unfold content_step at hcs
  by_cases himg : (mm && img.isSome) = true
  · rw [if_pos himg] at hcs
    obtain ⟨d, hd⟩ := hread himg
    simp only [image_step, hd] at hcs
    split at hcs <;> cases hcs
  · rw [if_neg himg] at hcs
    cases hcs

/-- C10: every assistant turn appended by a submit is a single text block with
hasImage=false, so its append prunes the store; hence after any submit call
that reaches the completion step (the client is configured and, when an image
is attached, its read succeeded) no multi-block turn remains in the store. -/
theorem c10_confirmed (env : Env) (h : List Turn) (a : CallArgs)
    (hc : env.clientConfigured = true)
    (hread : (a.mm && a.image.isSome) = true → ∃ d, env.imageRead = Except.ok d) :
    ∀ t ∈ (runCall env h a).hist, isMultiBlock t = false := by
  intro t ht
  simp only [runCall] at ht
  rcases process_message_cases env h a.user_input a.image a.mm a.model_name a.custom_model with
    ⟨hcf, _⟩ | ⟨e, hcs, _, _⟩ | ⟨mc, hcs, hsh⟩
  · rw [hc] at hcf
    cases hcf
  · exact absurd hcs (content_step_ok_of_read env _ _ _ _ _ hread e)
  · rcases hsh with ⟨m, heq⟩ | ⟨s, eo, heq⟩
    · rw [heq] at ht
      exact noMulti_handle _ _ t ht
    · rw [heq] at ht
      exact noMulti_respond _ _ _ t ht

/-- Witness for C10: after a plain text submit on the empty store, the
assistant turn present in the store is not multi-block. -/
theorem c10_witness :
    isMultiBlock ⟨"assistant", Content.blocks [ContentBlock.text "hi"], false, false⟩ = false :=
  c10_confirmed ⟨true, [], Except.ok "d", Except.ok "i", CompletionResult.ok "hi"⟩ []
    ⟨"hello", none, false, "m", ""⟩ rfl (fun hx => absurd hx (by decide))
    ⟨"assistant", Content.blocks [ContentBlock.text "hi"], false, false⟩ (by decide)

/-- C3 counterexample: a submit with image attach enabled, an image path, and
the non-vision model deepseek/deepseek-r1, with the read and the description
succeeding, stores the user turn with hasImage = true (not false as the
claim states), its content being the single described-text block. -/
theorem c3_counterexample :
    ((runCall ⟨true, vision_models, Except.ok "DESC", Except.ok "IMG",
        CompletionResult.ok "hi"⟩ [] ⟨"hi", some "p", true, "deepseek/deepseek-r1", ""⟩).hist.map
      (fun t => (t.has_image, t.content))) =
    [(true, Content.blocks [ContentBlock.text "hi\n[Image Description: DESC]"]),
     (false, Content.blocks [ContentBlock.text "hi"])] := rfl

/-- C3 (amended): for every submit with image attach enabled, a path, a
non-vision (or absent) capability entry, and a successful read and
description, the stored user turn has hasImage = TRUE (the code computes it
from attachment, not from routing) and its content is a single Text block
containing the literal marker followed by the description; no image block is
retained. -/
theorem c3_amended (vm : List (String × Bool)) (ir d : String)
    (cr : CompletionResult) (h : List Turn) (ui p mn cm : String)
    (hv : lookupVision vm (actualModelOf mn cm) = false) :
    (⟨"user", Content.blocks [ContentBlock.text
        (ui ++ "\n[Image Description: " ++ d ++ "]")], true, false⟩ : Turn) ∈
      (runCall ⟨true, vm, Except.ok d, Except.ok ir, cr⟩ h
        ⟨ui, some p, true, mn, cm⟩).hist := by
  simp only [runCall]
  rcases process_message_cases ⟨true, vm, Except.ok d, Except.ok ir, cr⟩ h ui (some p)
      true mn cm with ⟨hcf, _⟩ | ⟨e, hcs, _, _⟩ | ⟨mc, hcs, hsh⟩
  · simp at hcf
  · simp [content_step, image_step, get_image_description, hv] at hcs
  · simp [content_step, image_step, get_image_description, hv] at hcs
    rcases hsh with ⟨m, heq⟩ | ⟨s, eo, heq⟩ <;> rw [heq]
    · exact mem_handle_of _ (hcs ▸ self_mem_add h "user"
        (Content.blocks [ContentBlock.text (ui ++ "\n[Image Description: " ++ d ++ "]")])
        (true && (some p).isSome) false) rfl
    · exact mem_respond_of _ _ (hcs ▸ self_mem_add h "user"
        (Content.blocks [ContentBlock.text (ui ++ "\n[Image Description: " ++ d ++ "]")])
        (true && (some p).isSome) false) rfl

/-- Witness for C3 (amended) at a concrete call with the real capability
table. -/
theorem c3_witness :
    (⟨"user", Content.blocks [ContentBlock.text "hi\n[Image Description: DESC]"],
      true, false⟩ : Turn) ∈
      (runCall ⟨true, vision_models, Except.ok "DESC", Except.ok "IMG",
        CompletionResult.ok "ok"⟩ [] ⟨"hi", some "p", true, "deepseek/deepseek-r1", ""⟩).hist :=
  c3_amended vision_models "IMG" "DESC" (CompletionResult.ok "ok") [] "hi" "p"
    "deepseek/deepseek-r1" "" (by decide)

/-- C5 counterexample: when the description collaborator fails, the submit
returns an empty error value and stores a user turn whose text silently
embeds the failure string — the error is neither recorded as the assistant
turn nor returned. -/
theorem c5_counterexample :
    (runCall ⟨true, [], Except.error "boom", Except.ok "IMG", CompletionResult.ok "hi"⟩
        [] ⟨"q", some "p", true, "m", ""⟩).err = "" ∧
    (runCall ⟨true, [], Except.error "boom", Except.ok "IMG", CompletionResult.ok "hi"⟩
        [] ⟨"q", some "p", true, "m", ""⟩).hist.head? =
      some ⟨"user", Content.blocks [ContentBlock.text
        "q\n[Image Description: Error getting image description: boom]"], true, false⟩ :=
  ⟨rfl, rfl⟩

/-- C5 (amended): when describeImage fails, its error is converted to the
string form and silently embedded into the stored user turn's text inside
the marker; it is not recorded as an assistant turn and the submit's error
value stays empty when the completion succeeds. -/
theorem c5_amended (vm : List (String × Bool)) (ir e r : String)
    (h : List Turn) (ui p mn cm : String)
    (hv : lookupVision vm (actualModelOf mn cm) = false) :
    ((⟨"user", Content.blocks [ContentBlock.text
        (ui ++ "\n[Image Description: " ++ ("Error getting image description: " ++ e) ++ "]")],
        true, false⟩ : Turn) ∈
      (runCall ⟨true, vm, Except.error e, Except.ok ir, CompletionResult.ok r⟩ h
        ⟨ui, some p, true, mn, cm⟩).hist) ∧
    (runCall ⟨true, vm, Except.error e, Except.ok ir, CompletionResult.ok r⟩ []
        ⟨ui, some p, true, mn, cm⟩).err = "" := by
  constructor
  · simp only [runCall]
    rcases process_message_cases ⟨true, vm, Except.error e, Except.ok ir,
        CompletionResult.ok r⟩ h ui (some p) true mn cm with
      ⟨hcf, _⟩ | ⟨e2, hcs, _, _⟩ | ⟨mc, hcs, hsh⟩
    · simp at hcf
    · simp [content_step, image_step, get_image_description, hv] at hcs
    · simp [content_step, image_step, get_image_description, hv] at hcs
      rcases hsh with ⟨m, heq⟩ | ⟨s, eo, heq⟩ <;> rw [heq]
      · exact mem_handle_of _ (hcs ▸ self_mem_add h "user"
          (Content.blocks [ContentBlock.text (ui ++ "\n[Image Description: " ++
            ("Error getting image description: " ++ e) ++ "]")])
          (true && (some p).isSome) false) rfl
      · exact mem_respond_of _ _ (hcs ▸ self_mem_add h "user"
          (Content.blocks [ContentBlock.text (ui ++ "\n[Image Description: " ++
            ("Error getting image description: " ++ e) ++ "]")])
          (true && (some p).isSome) false) rfl
  · have hv2 : lookupVision vm (if mn = "custom" then cm else mn) = false := by
      simpa [actualModelOf] using hv
    simp [runCall, process_message, content_step, image_step, get_image_description,
      actualModelOf, baseContent, hv2, add_message, prune, isMultiBlock,
      build_api_messages, flatten_turn, firstText, respond_ok, handle_api_error,
      get_display_history, display_turn]

/-- Witness for C5 (amended) at a concrete failing description. -/
theorem c5_witness :
    (runCall ⟨true, [], Except.error "boom", Except.ok "IMG", CompletionResult.ok "hi"⟩ []
      ⟨"q", some "p", true, "m", ""⟩).err = "" :=
  (c5_amended [] "IMG" "boom" "hi" [] "q" "p" "m" "" (by decide)).2

/-- C4 counterexample: a submit with empty user text and no attached image on
the empty store leaves a user turn whose content is the empty block
sequence (the later API build then raises IndexError, recorded as an
assistant error turn, but the empty turn stays). -/
theorem c4_counterexample :
    (runCall ⟨true, [], Except.ok "d", Except.ok "i", CompletionResult.ok "hi"⟩ []
      ⟨"", none, false, "m", ""⟩).hist.head? =
    some ⟨"user", Content.blocks [], false, false⟩ := rfl

/-- Submit calls that provide a non-empty user text or attach an image. -/
def nonDegenerateCall (a : CallArgs) : Prop :=
  a.user_input ≠ "" ∨ (a.mm = true ∧ a.image ≠ none)

/-- A successful content_step of a call with non-empty user text or an
attached image yields a non-empty block list. -/
theorem content_step_nonempty (env : Env) (a : CallArgs) (mc : List ContentBlock)
    (hcs : content_step env a.user_input a.image a.mm a.model_name a.custom_model =
      Except.ok mc) (hp : nonDegenerateCall a) : mc ≠ [] := by
  unfold content_step at hcs
  by_cases himg : (a.mm && a.image.isSome) = true
  · rw [if_pos himg] at hcs
    unfold image_step at hcs
    rcases hir : env.imageRead with e | dd
    · simp only [hir] at hcs
      cases hcs
    · simp only [hir] at hcs
      split at hcs
      · simp only [Except.ok.injEq] at hcs
        subst hcs
        simp
      · simp only [Except.ok.injEq] at hcs
        subst hcs
        simp
  · rw [if_neg himg] at hcs
    simp only [Except.ok.injEq] at hcs
    subst hcs
    rcases hp with hui | ⟨hmm, hin⟩
    · simp [baseContent, hui]
    · exfalso
      have hsome : a.image.isSome = true := Option.isSome_iff_ne_none.mpr hin
      rw [hmm, hsome] at himg
      exact himg rfl

/-- One non-degenerate submit call preserves the all-contents-non-empty
invariant of the store. -/
theorem step_nonempty (env : Env) (h : List Turn) (a : CallArgs)
    (hh : ∀ t ∈ h, contentNonEmpty t = true) (hp : nonDegenerateCall a) :
    ∀ t ∈ (runCall env h a).hist, contentNonEmpty t = true := by
  intro t ht
  simp only [runCall] at ht
  rcases process_message_cases env h a.user_input a.image a.mm a.model_name a.custom_model with
    ⟨_, heq⟩ | ⟨e, _, heq, _⟩ | ⟨mc, hcs, hsh⟩
  · rw [heq] at ht
    exact hh t ht
  · rw [heq] at ht
    exact hh t ht
  · have hne : mc ≠ [] := content_step_nonempty env a mc hcs hp
    have hP : ∀ u ∈ add_message h "user" (Content.blocks mc)
        (a.mm && a.image.isSome) false, contentNonEmpty u = true := by
      intro u hu
      rcases mem_add_message hu with h1 | h1
      · exact hh u h1
      · rw [h1]
        simp [contentNonEmpty, hne]
    rcases hsh with ⟨m, heq⟩ | ⟨s, eo, heq⟩
    · rw [heq] at ht
      exact pres_handle _ _ _ (fun u hu _ => hP u hu) (fun s2 => rfl) t ht
    · rw [heq] at ht
      exact pres_respond _ _ _ _ (fun u hu _ => hP u hu) (fun s2 => rfl) t ht

/-- C4 (amended): every stored turn's content is a plain string or a block
sequence, and for stores reachable through submit calls that each provide a
non-empty user text or attach an image, the block sequence is never empty.
(A submit with empty user text and no attached image does append an
empty-content turn, as the counterexample shows.) -/
theorem c4_amended (h : List Turn) (hr : ReachableUnder nonDegenerateCall h) :
    ∀ t ∈ h, contentNonEmpty t = true := by
  induction hr with
  | start =>
    intro t ht
    cases ht
  | step h2 env a hr2 hp ih => exact step_nonempty env h2 a ih hp

/-- Witness for C4 (amended): the user turn stored by a plain-text submit on
the empty store has non-empty content. -/
theorem c4_witness :
    contentNonEmpty ⟨"user", Content.blocks [ContentBlock.text "hello"], false, false⟩ = true :=
  c4_amended _ (ReachableUnder.step []
      ⟨true, [], Except.ok "d", Except.ok "i", CompletionResult.ok "hi"⟩
      ⟨"hello", none, false, "m", ""⟩ ReachableUnder.start (Or.inl (by decide)))
    ⟨"user", Content.blocks [ContentBlock.text "hello"], false, false⟩ (by decide)

/-- C2 counterexample: two submits that each attach an image with empty user
text on a vision model leave single-block image turns that the prune rule
never removes; the API-ready array built during the second submit carries
two Image blocks. -/
theorem c2_counterexample :
    ((runCall ⟨true, [("vm", true)], Except.ok "d", Except.ok "IMG", CompletionResult.ok "hi"⟩
        ((runCall ⟨true, [("vm", true)], Except.ok "d", Except.ok "IMG", CompletionResult.ok "hi"⟩
          [] ⟨"", some "p", true, "vm", ""⟩).hist)
        ⟨"", some "p", true, "vm", ""⟩).api.map apiImgCount) = some 2 := rfl

/-- Submit calls that do not attach an image together with empty user text. -/
def noBareImageCall (a : CallArgs) : Prop :=
  a.user_input ≠ "" ∨ a.mm = false ∨ a.image = none

/-- Any successful content_step yields at most one image block. -/
theorem content_step_le_one (env : Env) (a : CallArgs) (mc : List ContentBlock)
    (hcs : content_step env a.user_input a.image a.mm a.model_name a.custom_model =
      Except.ok mc) : imgCountBlocks mc ≤ 1 := by
  unfold content_step at hcs
  split at hcs
  · unfold image_step at hcs
    rcases hir : env.imageRead with e | dd
    · simp only [hir] at hcs
      cases hcs
    · simp only [hir] at hcs
      split at hcs
      · simp only [Except.ok.injEq] at hcs
        subst hcs
        unfold baseContent
        split <;> simp [imgCountBlocks]
      · simp only [Except.ok.injEq] at hcs
        subst hcs
        simp [imgCountBlocks]
  · simp only [Except.ok.injEq] at hcs
    subst hcs
    unfold baseContent
    split <;> simp [imgCountBlocks]

/-- A successful content_step of a call satisfying noBareImageCall yields
either an image-free block list or a multi-block list (which the next
assistant append prunes). -/
theorem content_step_img (env : Env) (a : CallArgs) (mc : List ContentBlock)
    (hcs : content_step env a.user_input a.image a.mm a.model_name a.custom_model =
      Except.ok mc) (hp : noBareImageCall a) :
    imgCountBlocks mc = 0 ∨ 1 < mc.length := by
  unfold content_step at hcs
  by_cases himg : (a.mm && a.image.isSome) = true
  · rw [if_pos himg] at hcs
    have hui : a.user_input ≠ "" := by
      rcases hp with hui | hmf | hin
      · exact hui
      · exfalso
        rw [hmf] at himg
        simp at himg
      · exfalso
        rw [hin] at himg
        simp at himg
    unfold image_step at hcs
    rcases hir : env.imageRead with e | dd
    · simp only [hir] at hcs
      cases hcs
    · simp only [hir] at hcs
      split at hcs
      · right
        simp only [Except.ok.injEq] at hcs
        subst hcs
        simp [baseContent, hui]
      · left
        simp only [Except.ok.injEq] at hcs
        subst hcs
        simp [imgCountBlocks]
  · rw [if_neg himg] at hcs
    left
    simp only [Except.ok.injEq] at hcs
    subst hcs
    unfold baseContent
    split <;> rfl

/-- One noBareImageCall submit preserves the no-stored-image invariant. -/
theorem step_noimg (env : Env) (h : List Turn) (a : CallArgs)
    (hh : ∀ t ∈ h, turnImgCount t = 0) (hp : noBareImageCall a) :
    ∀ t ∈ (runCall env h a).hist, turnImgCount t = 0 := by
  intro t ht
  simp only [runCall] at ht
  rcases process_message_cases env h a.user_input a.image a.mm a.model_name a.custom_model with
    ⟨_, heq⟩ | ⟨e, _, heq, _⟩ | ⟨mc, hcs, hsh⟩
  · rw [heq] at ht
    exact hh t ht
  · rw [heq] at ht
    exact hh t ht
  · have hmc := content_step_img env a mc hcs hp
    have hP : ∀ u ∈ add_message h "user" (Content.blocks mc)
        (a.mm && a.image.isSome) false, isMultiBlock u = false → turnImgCount u = 0 := by
      intro u hu hum
      rcases mem_add_message hu with h1 | h1
      · exact hh u h1
      · rcases hmc with hc0 | hlen
        · rw [h1]
          simpa [turnImgCount] using hc0
        · exfalso
          rw [h1] at hum
          simp [isMultiBlock, hlen] at hum
    rcases hsh with ⟨m, heq⟩ | ⟨s, eo, heq⟩
    · rw [heq] at ht
      exact pres_handle _ _ _ hP (fun s2 => rfl) t ht
    · rw [heq] at ht
      exact pres_respond _ _ _ _ hP (fun s2 => rfl) t ht

/-- Stores reachable through noBareImageCall submits hold no image block. -/
theorem reach_noimg (h : List Turn) (hr : ReachableUnder noBareImageCall h) :
    ∀ t ∈ h, turnImgCount t = 0 := by
  induction hr with
  | start =>
    intro t ht
    cases ht
  | step h2 env a hr2 hp ih => exact step_noimg env h2 a ih hp

/-- Flattening a stored turn never increases its image-block count. -/
theorem flatten_img_le (t : Turn) (am : ApiMsg) (hf : flatten_turn t = Except.ok am) :
    apiMsgImgCount am ≤ turnImgCount t := by
  rcases t with ⟨r, c, hi, hp2⟩
  cases c with
  | str s =>
    simp only [flatten_turn, Except.ok.injEq] at hf
    subst hf
    exact Nat.le_refl 0
  | blocks bs =>
    cases hi with
    | true =>
      simp [flatten_turn] at hf
      subst hf
      exact Nat.le_refl _
    | false =>
      simp only [flatten_turn] at hf
      rcases hft : firstText bs with e | t0
      · rw [hft] at hf
        cases hf
      · rw [hft] at hf
        simp at hf
        subst hf
        exact Nat.zero_le _

/-- A successfully built API array carries no more image blocks than the
store it was built from. -/
theorem build_img_le (h : List Turn) (msgs : List ApiMsg)
    (hb : build_api_messages h = Except.ok msgs) :
    apiImgCount msgs ≤ (h.map turnImgCount).sum := by
  induction h generalizing msgs with
  | nil =>
    simp only [build_api_messages, Except.ok.injEq] at hb
    subst hb
    simp [apiImgCount]
  | cons m rest ih =>
    simp only [build_api_messages] at hb
    rcases hf : flatten_turn m with e | am
    · rw [hf] at hb
      cases hb
    · rw [hf] at hb
      rcases hbr : build_api_messages rest with e2 | ams
      · rw [hbr] at hb
        cases hb
      · rw [hbr] at hb
        simp only [Except.ok.injEq] at hb
        subst hb
        simp only [apiImgCount, List.map_cons, List.sum_cons, List.map_map] at ih ⊢
        exact Nat.add_le_add (flatten_img_le m am hf) (ih ams hbr)

/-- Sum of image counts over an image-free store is zero. -/
theorem sum_zero_of_all_zero (l : List Turn) (hz : ∀ t ∈ l, turnImgCount t = 0) :
    (l.map turnImgCount).sum = 0 := by
  induction l with
  | nil => rfl
  | cons x xs ih =>
    simp only [List.map_cons, List.sum_cons]
    rw [hz x (by simp), ih (fun t ht => hz t (by simp [ht]))]

/-- A submit call whose api field is filled got it from a successful
build_api_messages over the store with the new user turn appended. -/
theorem api_of_process (env : Env) (h : List Turn) (ui : String) (img : Option String)
    (mm : Bool) (mn cm : String) (msgs : List ApiMsg)
    (ha : (process_message env h ui img mm mn cm).api = some msgs) :
    ∃ mc, content_step env ui img mm mn cm = Except.ok mc ∧
      build_api_messages (add_message h "user" (Content.blocks mc) (mm && img.isSome) false) =
        Except.ok msgs := by
  by_cases hc : env.clientConfigured = false
  · simp [process_message, hc] at ha
  · rcases hcs : content_step env ui img mm mn cm with e | mc
    · simp [process_message, hc, hcs] at ha
    · refine ⟨mc, rfl, ?_⟩
      simp only [process_message, if_neg hc, hcs] at ha
      rcases hb : build_api_messages
          (add_message h "user" (Content.blocks mc) (mm && img.isSome) false) with e2 | ms
      · simp [hb] at ha
      · simp only [hb] at ha
        cases hcomp : env.completion <;> simp only [hcomp, Option.some.injEq] at ha <;>
          subst ha <;> rfl

/-- C2 (amended): for every store reachable through submit calls that never
pair an attached image with empty user text, the API-ready message array
built in step 5 of any further submit carries at most one Image block.
(An image attached with empty user text yields a single-block image turn
that survives pruning, and such turns accumulate, as the counterexample
shows.) -/
theorem c2_amended (h : List Turn) (env : Env) (a : CallArgs) (msgs : List ApiMsg)
    (hr : ReachableUnder noBareImageCall h)
    (ha : (runCall env h a).api = some msgs) :
    apiImgCount msgs ≤ 1 := by
  simp only [runCall] at ha
  obtain ⟨mc, hcs, hb⟩ :=
    api_of_process env h a.user_input a.image a.mm a.model_name a.custom_model msgs ha
  have hz : ∀ t ∈ h, turnImgCount t = 0 := reach_noimg h hr
  have hz2 : ∀ t ∈ (if (a.mm && a.image.isSome) then h else prune h),
      turnImgCount t = 0 := by
    intro t ht
    split at ht
    · exact hz t ht
    · exact hz t (mem_prune ht)
  have hle := build_img_le _ msgs hb
  refine hle.trans ?_
  unfold add_message
  rw [List.map_append, List.sum_append]
  rw [sum_zero_of_all_zero _ hz2]
  simpa [turnImgCount] using content_step_le_one env a mc hcs

/-- Witness for C2 (amended): the api array of a plain text submit on the
empty store has at most one image block. -/
theorem c2_witness :
    apiImgCount [⟨"user", ApiContent.str "hello"⟩] ≤ 1 :=
  c2_amended [] ⟨true, [], Except.ok "d", Except.ok "i", CompletionResult.ok "hi"⟩
    ⟨"hello", none, false, "m", ""⟩ [⟨"user", ApiContent.str "hello"⟩]
    ReachableUnder.start rfl

end Chatbot
